import Mathlib

/-!
Verification of the DocPilot summarization/retrieval backend.

The Python services of `backend/app` are shallowly embedded as executable
Lean definitions: strings stay strings, Python `int` arithmetic on
non-negative quantities becomes `Nat`, fallible generative calls become
`Except String String`, and the external vector store / generative model /
embedding backends become explicit functional parameters mirroring their
documented interfaces.
-/

namespace DocPilot

/-- Word splitter behind Python `str.split()` with no separator: skip
whitespace runs, emit maximal non-whitespace runs. -/
def splitWSChars : Nat → List Char → List String
  | 0, _ => []
  | _ + 1, [] => []
  | fuel + 1, c :: rest =>
    if c.isWhitespace then splitWSChars fuel rest
    else
      String.mk (c :: rest.takeWhile (fun x => !x.isWhitespace))
        :: splitWSChars fuel (rest.dropWhile (fun x => !x.isWhitespace))

/-- Python `str.split()` with no separator. -/
def pySplitWhitespace (s : String) : List String :=
  splitWSChars (s.length + 1) s.toList

/-- Python `str.strip()`: drop whitespace from both ends. -/
def pyStrip (s : String) : String :=
  String.mk
    (((s.toList.dropWhile Char.isWhitespace).reverse.dropWhile
      Char.isWhitespace).reverse)

/-- Python `str.lower()` (ASCII case folding). -/
def strLower (s : String) : String :=
  String.mk (s.toList.map Char.toLower)

/-- Python `s.startswith(pat)`. -/
def strStartsWith (s pat : String) : Bool :=
  pat.toList.isPrefixOf s.toList

/-- Python `sep.join(parts)`. -/
def joinSep (sep : String) : List String → String
  | [] => ""
  | [x] => x
  | x :: rest => x ++ sep ++ joinSep sep rest

/-- Python `str.split(sep)` for a non-empty separator: non-overlapping
left-to-right splitting. -/
def splitOnSep (sep : List Char) : Nat → List Char → List Char → List String
  | _, [], acc => [String.mk acc.reverse]
  | 0, cs, acc => [String.mk (acc.reverse ++ cs)]
  | fuel + 1, c :: rest, acc =>
    if sep.isPrefixOf (c :: rest) then
      String.mk acc.reverse
        :: splitOnSep sep fuel ((c :: rest).drop sep.length) []
    else splitOnSep sep fuel rest (c :: acc)

/-- Map with the running index, starting at `i`. -/
def mapIdxFrom {α β : Type} (f : Nat → α → β) : Nat → List α → List β
  | _, [] => []
  | i, a :: rest => f i a :: mapIdxFrom f (i + 1) rest

/-- Python `s[:n]` on a string (character slicing). -/
def pyTake (n : Nat) (s : String) : String :=
  String.mk (s.toList.take n)

/-- Python `s[a:b]` on a string with `0 ≤ a ≤ b` (character slicing). -/
def pySlice (s : String) (a b : Nat) : String :=
  String.mk ((s.toList.drop a).take (b - a))

/-- Substring test on character lists (used to model Python `in` / scheme
detection on URLs). -/
def isSubstr (pat : List Char) : List Char → Bool
  | [] => pat.isEmpty
  | c :: rest => pat.isPrefixOf (c :: rest) || isSubstr pat rest

/-- Model of `config.Settings`: the environment-configurable knobs used by the core
(defaults as in `backend/app/config.py`).  The float similarity threshold is
carried as an integer, matching the integer abstraction of similarity scores
used throughout this embedding. -/
structure Settings where
  section_small_threshold : Nat := 400
  chunk_max_tokens : Nat := 512
  max_sections_per_page : Nat := 30
  top_k_retrieval : Nat := 5
  similarity_threshold : Int := 35
deriving Repr, DecidableEq

def defaultSettings : Settings := {}

/-- Model of `state.EmbeddingType`: the role tag partitioning the vector index. -/
inductive EmbeddingType where
  | source
  | summary
deriving Repr, DecidableEq

/-- The string value of the role tag (Python `EmbeddingType` is a `str` enum). -/
def EmbeddingType.toStr : EmbeddingType → String
  | .source => "source"
  | .summary => "summary"

/-- Model of `hashlib.md5(...).hexdigest()` composed with the truncations the code
applies (`[:16]`, `[:12]`): modelled as an injective encoding of the hashed
content.  Every claim checked here depends only on the digest being a
deterministic function of its input. -/
def md5_hexdigest (s : String) : String := s

namespace PineconeClient

/-- Model of `PineconeClient.generate_namespace`: per-page namespace derived from the
page URL. -/
def generate_namespace (page_url : String) : String :=
  md5_hexdigest page_url

/-- Model of `PineconeClient.generate_section_id`: the stored vector id, a
deterministic function of `(page_url, section_id, embedding_type)`. -/
def generate_section_id (page_url : String) (section_id : String)
    (embedding_type : EmbeddingType) : String :=
  md5_hexdigest (page_url ++ ":" ++ section_id ++ ":" ++ embedding_type.toStr)

/-- Metadata attached to a stored vector by `upsert_sections`. -/
structure VecMeta where
  vector_id : String
  page_url : String
  section_id : String
  heading : String
  text : String
  section_text : String
  summary_text : String
  embedding_type : EmbeddingType
deriving Repr, DecidableEq

/-- One record of the external vector store (namespace, id, vector values,
metadata), per the store's documented interface. -/
structure StoredVec where
  ns : String
  id : String
  values : List Int
  metadata : VecMeta
deriving Repr, DecidableEq

abbrev VecStore := List StoredVec

/-- The vector store's upsert of a single record: overwrite the record with
the same `(namespace, id)` key if present, otherwise append. -/
def upsertOne : VecStore → StoredVec → VecStore
  | [], v => [v]
  | w :: rest, v =>
    if v.ns = w.ns ∧ v.id = w.id then v :: rest else w :: upsertOne rest v

/-- The section dicts handed to `upsert_sections`
(`section_id`, `heading`, `text`, `summary_text`). -/
structure SectionDict where
  section_id : String
  heading : String
  text : String
  summary_text : String
deriving Repr, DecidableEq

/-- The vector built for one section by `upsert_sections` (id, values and the
critical `embedding_type` metadata). -/
def sectionVector (page_url : String) (embedding_type : EmbeddingType)
    (s : SectionDict) (embedding : List Int) : StoredVec :=
  let vector_id := generate_section_id page_url s.section_id embedding_type
  { ns := generate_namespace page_url
    id := vector_id
    values := embedding
    metadata :=
      { vector_id := vector_id
        page_url := page_url
        section_id := s.section_id
        heading := s.heading
        text := pyTake 1000 s.text
        section_text := s.text
        summary_text := s.summary_text
        embedding_type := embedding_type } }

/-- Model of `PineconeClient.upsert_sections`: build one vector per
`(section, embedding)` pair and upsert them all (batching in `_batch_upsert`
does not change the resulting store contents). -/
def upsert_sections (store : VecStore) (page_url : String)
    (sections : List SectionDict) (embeddings : List (List Int))
    (embedding_type : EmbeddingType) : VecStore :=
  ((sections.zip embeddings).map
    (fun p => sectionVector page_url embedding_type p.1 p.2)).foldl upsertOne store

/-- Stable descending insertion by score (the store returns matches ordered by
descending similarity). -/
def insertByScoreDesc (score : StoredVec → Int) (v : StoredVec) :
    List StoredVec → List StoredVec
  | [] => [v]
  | w :: rest =>
    if score v < score w then w :: insertByScoreDesc score v rest
    else v :: w :: rest

def sortByScoreDesc (score : StoredVec → Int) : List StoredVec → List StoredVec
  | [] => []
  | v :: rest => insertByScoreDesc score v (sortByScoreDesc score rest)

/-- The vector store's `query` with a metadata filter on `embedding_type`:
restrict to the namespace and to records whose metadata satisfies the filter,
order by descending score, return at most `top_k` matches.  The similarity of
a stored record to the query vector is abstracted as an integer-valued
function `score`. -/
def indexQuery (score : StoredVec → Int) (store : VecStore) (ns : String)
    (top_k : Nat) (embedding_type : EmbeddingType) : List StoredVec :=
  let inNs := store.filter
    (fun w => w.ns == ns && w.metadata.embedding_type == embedding_type)
  (sortByScoreDesc score inNs).take top_k

/-- The result dicts produced by `search_sections`. -/
structure ResultDict where
  section_id : String
  score : Int
  text : String
  heading : String
  summary_text : String
  embedding_type : EmbeddingType
deriving Repr, DecidableEq

/-- Model of `PineconeClient.search_sections`: query the namespace of `page_url` with
the `embedding_type` filter, keep matches at or above the score threshold and
project them to result dicts. -/
def search_sections (score : StoredVec → Int) (store : VecStore)
    (page_url : String) (embedding_type : EmbeddingType) (top_k : Nat)
    (score_threshold : Int) : List ResultDict :=
  let ns := generate_namespace page_url
  let results := indexQuery score store ns top_k embedding_type
  (results.filter (fun m => score_threshold ≤ score m)).map fun m =>
    { section_id := m.metadata.section_id
      score := score m
      text := m.metadata.section_text
      heading := m.metadata.heading
      summary_text := m.metadata.summary_text
      embedding_type := m.metadata.embedding_type }

/-- Model of the vector store's `query` as issued by the legacy
`search_similar`: namespace restriction only, with NO metadata filter on
`embedding_type`. -/
def indexQueryAll (score : StoredVec → Int) (store : VecStore) (ns : String)
    (top_k : Nat) : List StoredVec :=
  (sortByScoreDesc score (store.filter (fun w => w.ns == ns))).take top_k

/-- Result dicts of the legacy `search_similar`
(`chunk_id`, `score`, `text`, `heading`, `chunk_index`, `section_id`) — note
they carry no role information at all. -/
structure ChunkResult where
  chunk_id : String
  score : Int
  text : String
  heading : String
  chunk_index : Nat
  section_id : String
deriving Repr, DecidableEq

/-- Model of `PineconeClient.search_similar` (the legacy method, still the
one behind the effective streaming follow-up path): it queries the page's
namespace with no `embedding_type` filter and keeps every match at or above
the threshold.  For records written by `upsert_sections` the `section_text`
metadata key is always present, so the `full_text`/`text` fallbacks of the
text lookup are idle, and no `chunk_index` key exists, so that lookup yields
its default 0. -/
def search_similar (score : StoredVec → Int) (store : VecStore)
    (page_url : String) (top_k : Nat) (score_threshold : Int) :
    List ChunkResult :=
  let ns := generate_namespace page_url
  let results := indexQueryAll score store ns top_k
  (results.filter (fun m => score_threshold ≤ score m)).map fun m =>
    { chunk_id := m.id
      score := score m
      text := m.metadata.section_text
      heading := m.metadata.heading
      chunk_index := 0
      section_id := m.metadata.section_id }

end PineconeClient

namespace RetrievalService

open PineconeClient

/-- Stable descending insertion by score on result dicts
(`results.sort(key=score, reverse=True)` is a stable sort). -/
def insertResultByScoreDesc (v : ResultDict) :
    List ResultDict → List ResultDict
  | [] => [v]
  | w :: rest =>
    if v.score < w.score then w :: insertResultByScoreDesc v rest
    else v :: w :: rest

def sortResultsByScoreDesc : List ResultDict → List ResultDict
  | [] => []
  | v :: rest => insertResultByScoreDesc v (sortResultsByScoreDesc rest)

/-- Model of `RetrievalService.retrieve_sections`: embed the query, search with the
`embedding_type` filter, and sort the surviving results by descending score.
Query embedding plus similarity is abstracted as `scoreOf : query → record →
score`. -/
def retrieve_sections (scoreOf : String → StoredVec → Int) (store : VecStore)
    (page_url query : String) (embedding_type : EmbeddingType) (top_k : Nat)
    (score_threshold : Int) : List ResultDict :=
  sortResultsByScoreDesc
    (search_sections (scoreOf query) store page_url embedding_type top_k
      score_threshold)

/-- Model of `RetrievalService.store_sections`: embed the role-appropriate text of each
section and upsert the records under the given role.  The passage embedder is
abstracted as `embed`. -/
def store_sections (embed : String → List Int) (store : VecStore)
    (page_url : String) (sections : List SectionDict)
    (embedding_type : EmbeddingType) : VecStore :=
  if sections.isEmpty then store
  else
    let texts := match embedding_type with
      | .source => sections.map SectionDict.text
      | .summary => sections.map SectionDict.summary_text
    upsert_sections store page_url sections (texts.map embed) embedding_type

/-- Stable descending insertion by score on legacy chunk results. -/
def insertChunkByScoreDesc (v : ChunkResult) :
    List ChunkResult → List ChunkResult
  | [] => [v]
  | w :: rest =>
    if v.score < w.score then w :: insertChunkByScoreDesc v rest
    else v :: w :: rest

def sortChunksByScoreDesc : List ChunkResult → List ChunkResult
  | [] => []
  | v :: rest => insertChunkByScoreDesc v (sortChunksByScoreDesc rest)

/-- Model of `RetrievalService.retrieve_relevant_chunks` (the legacy method):
embed the query, `search_similar` with no role filter, sort by descending
score. -/
def retrieve_relevant_chunks (scoreOf : String → StoredVec → Int)
    (store : VecStore) (page_url query : String) (top_k : Nat)
    (score_threshold : Int) : List ChunkResult :=
  sortChunksByScoreDesc
    (search_similar (scoreOf query) store page_url top_k score_threshold)

end RetrievalService

namespace SectionExtractor

/-- Model of `SectionExtractor.estimate_tokens`: word-based token estimate
(`max(1, int(words * 1.3))`, and `0` for the empty string). -/
def estimate_tokens (text : String) : Nat :=
  if text = "" then 0
  else max 1 ((pySplitWhitespace text).length * 13 / 10)

/-- Model of `SectionExtractor.generate_section_id`: stable section id from
`(page_url, heading, ordinal index)`. -/
def generate_section_id (page_url heading : String) (index : Nat) : String :=
  md5_hexdigest (page_url ++ ":section:" ++ toString index ++ ":" ++ heading)

/-- A heading match (`text`, `level`, character `start`/`stop` of the match),
as produced by the heading regexes. -/
structure Heading where
  text : String
  level : Nat
  start : Nat
  stop : Nat
deriving Repr, DecidableEq

/-- Split a character stream at newline characters (the lines scanned by the
MULTILINE Markdown heading regex). -/
def splitLinesChars : List Char → List (List Char)
  | [] => [[]]
  | c :: rest =>
    if c = '\n' then [] :: splitLinesChars rest
    else
      match splitLinesChars rest with
      | [] => [[c]]
      | l :: ls => (c :: l) :: ls

/-- Pair each line with its character offset in the document. -/
def linesWithPos : Nat → List (List Char) → List (Nat × List Char)
  | _, [] => []
  | pos, l :: rest => (pos, l) :: linesWithPos (pos + l.length + 1) rest

/-- One line against the Markdown heading pattern
`^(#{1,3})\s+(.+)$` (MULTILINE): one to three leading `#`, at least one
whitespace character, then the (stripped) heading text.  A line whose run of
leading `#` exceeds three never matches; a line that is all whitespace after
the `#` run matches with an empty stripped heading when at least two
characters follow the run. -/
def mdHeadingOfLine (pos : Nat) (line : List Char) : Option Heading :=
  let hashes := line.takeWhile (fun c => c = '#')
  let rest := line.dropWhile (fun c => c = '#')
  if 1 ≤ hashes.length ∧ hashes.length ≤ 3 then
    let ws := rest.takeWhile Char.isWhitespace
    let tail := rest.dropWhile Char.isWhitespace
    if ws.length = 0 then none
    else if tail ≠ [] then
      some { text := pyStrip (String.mk tail), level := hashes.length,
             start := pos, stop := pos + line.length }
    else if 2 ≤ rest.length then
      some { text := "", level := hashes.length,
             start := pos, stop := pos + line.length }
    else none
  else none

/-- All Markdown headings of the document, in position order. -/
def mdHeadings (text : String) : List Heading :=
  (linesWithPos 0 (splitLinesChars text.toList)).filterMap
    (fun p => mdHeadingOfLine p.1 p.2)

/-- Whether `cs` starts with the closing tag `</hN>` for heading digit
`level` (case-insensitive on the `h`). -/
def isCloseTagAt (level : Char) (cs : List Char) : Bool :=
  match cs with
  | '<' :: '/' :: h :: d :: '>' :: _ => h.toLower == 'h' && d == level
  | _ => false

/-- Non-greedy body of an HTML heading (`(.+?)` with DOTALL): the shortest
non-empty character run followed by the closing tag; returns the body and the
remainder after the closing tag. -/
def findBody (level : Char) : Nat → List Char → Option (List Char × List Char)
  | 0, _ => none
  | _ + 1, [] => none
  | fuel + 1, c :: rest =>
    if isCloseTagAt level rest then some ([c], rest.drop 5)
    else
      match findBody level fuel rest with
      | some (body, after) => some (c :: body, after)
      | none => none

/-- Scan for HTML headings `<h([1-3])[^>]*>(.+?)</h\1>` (IGNORECASE,
DOTALL), advancing one character on failure and past the match on success. -/
def htmlScan : Nat → Nat → List Char → List Heading
  | 0, _, _ => []
  | _ + 1, _, [] => []
  | fuel + 1, pos, c :: rest =>
    if c = '<' then
      match rest with
      | h :: d :: rest2 =>
        if h.toLower = 'h' ∧ (d = '1' ∨ d = '2' ∨ d = '3') then
          let rest3 := rest2.dropWhile (fun x => x ≠ '>')
          match rest3 with
          | '>' :: body0 =>
            match findBody d body0.length body0 with
            | some (body, after) =>
              { text := pyStrip (String.mk body), level := d.toNat - 48,
                start := pos,
                stop := pos + ((c :: rest).length - after.length) }
                :: htmlScan fuel (pos + ((c :: rest).length - after.length)) after
            | none => htmlScan fuel (pos + 1) rest
          | _ => htmlScan fuel (pos + 1) rest
        else htmlScan fuel (pos + 1) rest
      | _ => htmlScan fuel (pos + 1) rest
    else htmlScan fuel (pos + 1) rest

/-- All HTML headings of the document (only consulted when no Markdown
heading matched). -/
def htmlHeadings (text : String) : List Heading :=
  htmlScan (text.length + 1) 0 text.toList

/-- Stable ascending insertion by match start
(`headings.sort(key=lambda x: x["start"])` is a stable sort). -/
def insertByStart (h : Heading) : List Heading → List Heading
  | [] => [h]
  | w :: rest =>
    if w.start < h.start then w :: insertByStart h rest
    else h :: w :: rest

def sortByStart : List Heading → List Heading
  | [] => []
  | h :: rest => insertByStart h (sortByStart rest)

/-- Model of `SectionExtractor.extract_headings`: Markdown headings, falling back to
HTML headings when none matched, sorted by position. -/
def extract_headings (text : String) : List Heading :=
  let md := mdHeadings text
  let hs := if md.isEmpty then htmlHeadings text else md
  sortByStart hs

/-- Raw extracted section (`ExtractedSection` dataclass). -/
structure ExtractedSection where
  section_id : String
  heading : String
  heading_level : Nat
  raw_text : String
  start_pos : Nat
  end_pos : Nat
  token_count : Nat
deriving Repr, DecidableEq

/-- The per-heading loop of `extract_sections`: the span from just past a
heading to the next heading (or to the end of the document) becomes a
section; blank or sub-20-character spans are skipped without consuming an
ordinal index. -/
def sectionsOfHeadings (page_url text : String) :
    List Heading → Nat → List ExtractedSection
  | [], _ => []
  | h :: rest, section_index =>
    let section_start := h.stop + 1
    let section_end := match rest with
      | [] => text.length
      | h2 :: _ => h2.start
    let section_text := pyStrip (pySlice text section_start section_end)
    if section_text = "" ∨ section_text.length < 20 then
      sectionsOfHeadings page_url text rest section_index
    else
      { section_id := generate_section_id page_url h.text section_index
        heading := h.text
        heading_level := h.level
        raw_text := section_text
        start_pos := section_start
        end_pos := section_end
        token_count := estimate_tokens section_text }
        :: sectionsOfHeadings page_url text rest (section_index + 1)

/-- Model of `SectionExtractor.extract_sections`: content before the first heading
becomes an "Introduction" section when longer than 50 characters, each
heading's span becomes a section, a document with no (surviving) sections but
non-blank text becomes a single "Content" section, and the list is truncated
to `max_sections_per_page`. -/
def extract_sections (cfg : Settings) (text page_url : String) :
    List ExtractedSection :=
  let headings := extract_headings text
  let intro : List ExtractedSection :=
    match headings with
    | [] => []
    | h0 :: _ =>
      if 0 < h0.start then
        let intro_text := pyStrip (pySlice text 0 h0.start)
        if intro_text ≠ "" ∧ 50 < intro_text.length then
          [{ section_id := generate_section_id page_url "Introduction" 0
             heading := "Introduction"
             heading_level := 1
             raw_text := intro_text
             start_pos := 0
             end_pos := h0.start
             token_count := estimate_tokens intro_text }]
        else []
      else []
  let body := sectionsOfHeadings page_url text headings intro.length
  let sections := intro ++ body
  let sections :=
    if sections.isEmpty ∧ pyStrip text ≠ "" then
      [{ section_id := generate_section_id page_url "Content" 0
         heading := "Content"
         heading_level := 1
         raw_text := pyStrip text
         start_pos := 0
         end_pos := text.length
         token_count := estimate_tokens text }]
    else sections
  if cfg.max_sections_per_page < sections.length then
    sections.take cfg.max_sections_per_page
  else sections

/-- Model of `SectionExtractor.is_large_section`: a section needs the hierarchical
path iff its token count exceeds the small-section threshold. -/
def is_large_section (cfg : Settings) (token_count : Nat) : Bool :=
  cfg.section_small_threshold < token_count

end SectionExtractor

/-- Model of `handle_followup_node`'s retrieval step (`agent/nodes.py`): follow-up
question answering always retrieves with `EmbeddingType.SOURCE`. -/
def handle_followup_retrieve (cfg : Settings)
    (scoreOf : String → PineconeClient.StoredVec → Int)
    (store : PineconeClient.VecStore) (page_url user_query : String) :
    List PineconeClient.ResultDict :=
  RetrievalService.retrieve_sections scoreOf store page_url user_query
    EmbeddingType.source cfg.top_k_retrieval cfg.similarity_threshold

/-- Retrieval step of the `handle_followup_streaming` that is actually in
effect: `agent/nodes.py` defines `handle_followup_streaming` twice, and the
second, legacy definition (under the LEGACY COMPATIBILITY section) shadows
the role-filtered first one at module load, so the streaming follow-up path
(`SummarizationAgent.handle_followup_streaming`, served by the follow-up
endpoint) retrieves via `retrieve_relevant_chunks` → `search_similar`, with
default `top_k`/threshold from settings and no `embedding_type` filter. -/
def handle_followup_streaming_retrieve (cfg : Settings)
    (scoreOf : String → PineconeClient.StoredVec → Int)
    (store : PineconeClient.VecStore) (page_url user_query : String) :
    List PineconeClient.ChunkResult :=
  RetrievalService.retrieve_relevant_chunks scoreOf store page_url user_query
    cfg.top_k_retrieval cfg.similarity_threshold

/-- Model of `state.SectionData`: a logical section with its processing state. -/
structure SectionData where
  section_id : String
  heading : String
  heading_level : Nat
  raw_text : String
  token_count : Nat
  is_large : Bool
  summary_text : Option String := none
  is_summarized : Bool := false
  source_embedded : Bool := false
  summary_embedded : Bool := false
deriving Repr, DecidableEq

/-- Model of `state.ChunkData`: a chunk of a large section. -/
structure ChunkData where
  index : Nat
  text : String
  heading : String
  section_id : String
  token_count : Nat
deriving Repr, DecidableEq

/-- The conversion done in `extract_sections_node`: a raw extracted section
becomes a `SectionData` whose `is_large` flag is fixed, once, from the token
count at extraction time. -/
def toSectionData (cfg : Settings) (raw : SectionExtractor.ExtractedSection) :
    SectionData :=
  { section_id := raw.section_id
    heading := raw.heading
    heading_level := raw.heading_level
    raw_text := raw.raw_text
    token_count := raw.token_count
    is_large := SectionExtractor.is_large_section cfg raw.token_count }

/-- Model of `extract_sections_node`'s section list: every raw section converted with
its `is_large` flag. -/
def extract_sections_node (cfg : Settings)
    (raws : List SectionExtractor.ExtractedSection) : List SectionData :=
  raws.map (toSectionData cfg)

/-- Python `'. '.split` of the section text after newline flattening
(`text.replace('\n', ' ').split('. ')` in `_split_section_into_chunks`). -/
def splitSentences (text : String) : List String :=
  splitOnSep ". ".toList (text.length + 1)
    (text.toList.map fun c => if c = '\n' then ' ' else c) []

/-- Per-sentence token estimate of the chunk splitter
(`int(len(sentence.split()) * 1.3)`). -/
def sentenceTokens (sentence : String) : Nat :=
  (pySplitWhitespace sentence).length * 13 / 10

/-- The sentence-accumulation loop of `_split_section_into_chunks`: greedily
extend the current chunk until adding the next (stripped, non-empty) sentence
would exceed the token budget, then close the chunk; the trailing chunk is
closed at the end.  Each closed chunk is its sentence list plus its token
count. -/
def chunkLoop (max_chunk_tokens : Nat) :
    List String → List String → Nat → List (List String × Nat)
  | [], current_chunk, current_tokens =>
    if current_chunk.isEmpty then [] else [(current_chunk, current_tokens)]
  | s :: rest, current_chunk, current_tokens =>
    let sentence := pyStrip s
    if sentence = "" then chunkLoop max_chunk_tokens rest current_chunk current_tokens
    else
      let sentence_tokens := sentenceTokens sentence
      if max_chunk_tokens < current_tokens + sentence_tokens ∧ ¬ current_chunk.isEmpty then
        (current_chunk, current_tokens)
          :: chunkLoop max_chunk_tokens rest [sentence] sentence_tokens
      else
        chunkLoop max_chunk_tokens rest (current_chunk ++ [sentence])
          (current_tokens + sentence_tokens)

/-- The chunk groups (sentence lists with token counts) of a text. -/
def chunkGroups (cfg : Settings) (text : String) : List (List String × Nat) :=
  chunkLoop cfg.chunk_max_tokens (splitSentences text) [] 0

/-- Model of `_split_section_into_chunks`: each closed group becomes a `ChunkData`
whose text re-joins its sentences with `'. '` plus a trailing period, indexed
in order. -/
def _split_section_into_chunks (cfg : Settings) (sec : SectionData) :
    List ChunkData :=
  mapIdxFrom (fun i g =>
    { index := i
      text := joinSep ". " g.1 ++ "."
      heading := sec.heading
      section_id := sec.section_id
      token_count := g.2 }) 0 (chunkGroups cfg sec.raw_text)

/-- The stripped, non-empty sentence sequence of a section text (the
sentences the chunk splitter distributes over chunks). -/
def sectionSentences (text : String) : List String :=
  ((splitSentences text).map pyStrip).filter (fun s => s ≠ "")

/-- A generative request (`llm.generate` arguments); temperature is carried
in tenths. -/
structure GenRequest where
  prompt : String
  system_prompt : String
  max_tokens : Nat
  temperature_tenths : Nat
deriving Repr, DecidableEq

/-- The generative backend: a request either fails (exception message) or
yields text. -/
abbrev LLM := GenRequest → Except String String

def SYSTEM_PROMPT_fact_extraction : String :=
  "You are a fact extraction agent.\nExtract ONLY factual points and key concepts from the text.\nDO NOT summarize, explain, or rewrite.\nDO NOT add interpretations or generalizations.\nOutput bullet points of raw facts only."

def SYSTEM_PROMPT_section_summary : String :=
  "You are a documentation summarizer for developers.\nSummarize clearly and concisely.\nPreserve important technical details.\nUse bullet points for lists.\nAssume the reader is a contributor who needs actionable information."

def SYSTEM_PROMPT_page_synthesis : String :=
  "You are a documentation overview generator.\nCreate high-level page summaries that:\n- Provide a TL;DR (5 bullet points max)\n- Highlight relationships between sections\n- Avoid repeating section-level details\n- Help readers navigate the document quickly"

def SYSTEM_PROMPT_followup : String :=
  "You are a documentation assistant.\nAnswer questions ONLY using the provided context.\nBe direct and specific.\nIf information is not in the context, say so clearly.\nCite specific sections when relevant."

/-- Model of `PAGE_TYPE_INSTRUCTIONS.get(page_type, PAGE_TYPE_INSTRUCTIONS["unknown"])`. -/
def pageTypeInstruction (page_type : String) : String :=
  if page_type = "docs" then
    "Technical documentation for developers.\nFocus on: core functionality, usage patterns, configuration, prerequisites."
  else if page_type = "blog" then
    "Blog post or article.\nFocus on: main arguments, key insights, conclusions, practical takeaways."
  else if page_type = "api" then
    "API reference documentation.\nFocus on: endpoints, request/response formats, parameters, authentication, errors."
  else if page_type = "readme" then
    "README file or project description.\nFocus on: project purpose, installation, quick start, key features."
  else
    "General web content.\nFocus on: main topics, key information, actionable items."

/-- Model of `PromptBuilder.build_chunk_fact_extraction_prompt`. -/
def build_chunk_fact_extraction_prompt (chunk_text chunk_heading : String) : String :=
  "Section: " ++ chunk_heading ++ "\n\nText:\n" ++ chunk_text ++
    "\n\nExtract factual points and key concepts only.\nDo not summarize, explain, or rewrite.\nOutput as bullet points:"

/-- Model of `PromptBuilder.build_section_summary_prompt_direct`. -/
def build_section_summary_prompt_direct
    (section_text section_heading page_type : String) : String :=
  "Summarize this documentation section clearly and concisely.\nAssume the reader is a contributor.\nPreserve important technical details.\n\nPage Type: "
    ++ page_type ++ "\n" ++ pageTypeInstruction page_type
    ++ "\n\nSection: " ++ section_heading
    ++ "\n\nContent:\n" ++ section_text
    ++ "\n\nSummary (2-4 paragraphs, use bullet points for lists):"

/-- Model of `PromptBuilder.build_section_summary_prompt_from_facts`. -/
def build_section_summary_prompt_from_facts
    (merged_facts section_heading page_type : String) : String :=
  "Summarize this documentation section using the extracted facts.\nAssume the reader is a contributor.\nPreserve important technical details.\n\nPage Type: "
    ++ page_type ++ "\n" ++ pageTypeInstruction page_type
    ++ "\n\nSection: " ++ section_heading
    ++ "\n\nExtracted Facts:\n" ++ merged_facts
    ++ "\n\nSummary (2-4 paragraphs, synthesize the facts into a coherent summary):"

/-- The enumerated section-summaries block of
`PromptBuilder.build_page_synthesis_prompt`. -/
def synthesisSummariesText (section_summaries : List (String × String)) : String :=
  joinSep "" (mapIdxFrom (fun i p =>
    "\n**Section " ++ toString (i + 1) ++ ":**\n" ++ p.2 ++ "\n") 0 section_summaries)

/-- Model of `PromptBuilder.build_page_synthesis_prompt`. -/
def build_page_synthesis_prompt (section_summaries : List (String × String))
    (page_title page_type : String) : String :=
  let title_context := if page_title ≠ "" then "Page: " ++ page_title ++ "\n" else ""
  "Create a high-level overview of this page.\nHighlight relationships between sections.\nAvoid repeating section-level details.\n\n"
    ++ title_context ++ "Page Type: " ++ page_type
    ++ "\n\nSection Summaries:\n" ++ synthesisSummariesText section_summaries
    ++ "\n\nGenerate:\n1. **TL;DR** (5 bullet points max - the essential takeaways)\n2. **Section Outline** (brief description of what each section covers)\n\nPage Overview:"

/-- The fact-extraction request issued for one chunk of a large section. -/
def fact_extraction_request (section_heading : String) (chunk : ChunkData) :
    GenRequest :=
  { prompt := build_chunk_fact_extraction_prompt chunk.text section_heading
    system_prompt := SYSTEM_PROMPT_fact_extraction
    max_tokens := 300
    temperature_tenths := 3 }

/-- Model of `_process_large_section`: split into chunks, extract facts from each
chunk in order (an exception in any chunk call propagates), merge the fact
blocks with newlines, and summarize from the merged facts. -/
def _process_large_section (cfg : Settings) (llm : LLM) (page_type : String)
    (sec : SectionData) : Except String String := do
  let chunks := _split_section_into_chunks cfg sec
  let all_facts ← chunks.mapM (fun c => llm (fact_extraction_request sec.heading c))
  let merged_facts := joinSep "\n" all_facts
  llm
    { prompt := build_section_summary_prompt_from_facts merged_facts sec.heading page_type
      system_prompt := SYSTEM_PROMPT_section_summary
      max_tokens := 512
      temperature_tenths := 5 }

/-- Model of `_process_small_section`: summarize directly from the raw text. -/
def _process_small_section (llm : LLM) (page_type : String)
    (sec : SectionData) : Except String String :=
  llm
    { prompt := build_section_summary_prompt_direct sec.raw_text sec.heading page_type
      system_prompt := SYSTEM_PROMPT_section_summary
      max_tokens := 512
      temperature_tenths := 5 }

/-- The adaptive branch of `process_section_node`: the hierarchical path
exactly when `is_large`, the direct path otherwise. -/
def sectionSummaryE (cfg : Settings) (llm : LLM) (page_type : String)
    (sec : SectionData) : Except String String :=
  if sec.is_large then _process_large_section cfg llm page_type sec
  else _process_small_section llm page_type sec

/-- Python dict insertion on an insertion-ordered association list: an
existing key is updated in place, a new key is appended. -/
def dictInsert : List (String × String) → String → String → List (String × String)
  | [], k, v => [(k, v)]
  | p :: rest, k, v =>
    if p.1 = k then (k, v) :: rest else p :: dictInsert rest k v

/-- Python dict lookup on the association list. -/
def dictLookup : List (String × String) → String → Option String
  | [], _ => none
  | p :: rest, k => if p.1 = k then some p.2 else dictLookup rest k

/-- The slice of `AgentState` that the section-processing loop reads and
writes: the section list, the loop cursor, the accumulated summary map, and
the page type used in prompts. -/
structure PipeState where
  sections : List SectionData
  current_section_index : Nat
  section_summaries : List (String × String)
  page_type : String
deriving Repr

/-- The updated section recorded on success
(`section.model_copy(update=dict(summary_text=..., is_summarized=True))`). -/
def sectionWithSummary (sec : SectionData) (summary : String) : SectionData :=
  { sec with summary_text := some summary, is_summarized := true }

/-- Model of `process_section_node`: process the section at the cursor with the
adaptive strategy; on success record its summary, on failure record the
`[Error summarizing: <heading>]` placeholder; either way advance the cursor
by one.  Past the end the state is returned unchanged. -/
def process_section_node (cfg : Settings) (llm : LLM) (st : PipeState) : PipeState :=
  if h : st.current_section_index < st.sections.length then
    let sec := st.sections.get ⟨st.current_section_index, h⟩
    match sectionSummaryE cfg llm st.page_type sec with
    | .ok summary =>
      { st with
        sections := st.sections.set st.current_section_index (sectionWithSummary sec summary)
        section_summaries := dictInsert st.section_summaries sec.section_id summary
        current_section_index := st.current_section_index + 1 }
    | .error _ =>
      { st with
        section_summaries := dictInsert st.section_summaries sec.section_id
          ("[Error summarizing: " ++ sec.heading ++ "]")
        current_section_index := st.current_section_index + 1 }
  else st

/-- Model of `should_continue_processing`: loop back while sections remain, otherwise
route to embedding. -/
def should_continue_processing (st : PipeState) : String :=
  if st.current_section_index < st.sections.length then "continue" else "embed"

/-- Model of `synthesize_page_node` on the accumulated summary map: empty map yields
the fixed message, a single entry is returned verbatim, otherwise one
synthesis call is issued, degrading to a delimiter-joined concatenation on
failure.  The boolean records whether a generative synthesis call was
issued. -/
def synthesize_page_node (llm : LLM) (page_title page_type : String)
    (section_summaries : List (String × String)) : String × Bool :=
  match section_summaries with
  | [] => ("No content was summarized.", false)
  | [p] => (p.2, false)
  | _ =>
    match llm
      { prompt := build_page_synthesis_prompt section_summaries page_title page_type
        system_prompt := SYSTEM_PROMPT_page_synthesis
        max_tokens := 800
        temperature_tenths := 5 } with
    | .ok page_summary => (page_summary, true)
    | .error _ =>
      (joinSep "\n\n---\n\n" (section_summaries.map Prod.snd), true)

/-- Integer rendering of a similarity score
(the `f"{score:.2f}"` float formatting is abstracted along with the scores). -/
def formatScore (score : Int) : String := toString score

/-- One section's block in the grounding context
(`f"## {heading} (relevance: {score:.2f})\n{text}\n"`). -/
def ctxEntry (s : PineconeClient.ResultDict) : String :=
  "## " ++ s.heading ++ " (relevance: " ++ formatScore s.score ++ ")\n" ++ s.text ++ "\n"

/-- The accumulation loop of
`RetrievalService.build_context_from_sections`: append whole section blocks
while they fit the token budget; for the first block that would overflow,
truncate it to the remaining character budget when more than 100 characters
remain, otherwise stop. -/
def buildCtxLoop (max_tokens : Nat) :
    List PineconeClient.ResultDict → Nat → List String
  | [], _ => []
  | s :: rest, current_length =>
    let section_text := ctxEntry s
    let section_tokens := section_text.length / 4
    if max_tokens < current_length + section_tokens then
      let remaining := max_tokens - current_length
      let remaining_chars := remaining * 4
      if 100 < remaining_chars then [pyTake remaining_chars section_text ++ "..."]
      else []
    else
      section_text :: buildCtxLoop max_tokens rest (current_length + section_tokens)

/-- Model of `RetrievalService.build_context_from_sections`. -/
def build_context_from_sections (sections : List PineconeClient.ResultDict)
    (max_tokens : Nat) : String :=
  if sections.isEmpty then ""
  else joinSep "\n" (buildCtxLoop max_tokens sections 0)

namespace LinkCrawler

/-- A link extracted from the page (`url`, anchor `text`, surrounding
`context`). -/
structure Link where
  url : String
  text : String
  context : String
deriving Repr, DecidableEq

/-- A link with its query-relevance score. -/
structure ScoredLink where
  url : String
  text : String
  context : String
  relevance_score : Nat
deriving Repr, DecidableEq

/-- Characters after the first `//` of a URL, if any. -/
def afterDoubleSlash : List Char → Option (List Char)
  | '/' :: '/' :: rest => some rest
  | _ :: rest => afterDoubleSlash rest
  | [] => none

/-- Model of `urlparse(url).netloc`: the host part following `//`, up to the next
path/query/fragment delimiter; empty for relative references. -/
def netlocOf (url : String) : String :=
  match afterDoubleSlash url.toList with
  | none => ""
  | some rest =>
    String.mk (rest.takeWhile (fun c => !(c == '/' || c == '?' || c == '#')))

/-- The scheme of an absolute URL (characters before the first `:`). -/
def schemeOf (url : String) : String :=
  String.mk (url.toList.takeWhile (fun c => c ≠ ':'))

/-- Model of `scheme://netloc` of a URL. -/
def originOf (url : String) : String :=
  schemeOf url ++ "://" ++ netlocOf url

/-- The path of a URL after the authority. -/
def pathOf (url : String) : String :=
  match afterDoubleSlash url.toList with
  | none => url
  | some rest => String.mk (rest.dropWhile (fun c => c ≠ '/'))

/-- The directory of a path: everything up to and including the last `/`
(`/` when the path has none). -/
def dirOf (path : String) : String :=
  let r := path.toList.reverse.dropWhile (fun c => c ≠ '/')
  if r.isEmpty then "/" else String.mk r.reverse

/-- Model of `urllib.parse.urljoin(base, href)` for the cases the crawler meets: an
absolute `href` (one carrying `://`) wins outright; protocol-relative,
root-relative and document-relative references resolve against the base. -/
def urljoin (base href : String) : String :=
  if href = "" then base
  else if isSubstr "://".toList href.toList then href
  else if strStartsWith href "//" then schemeOf base ++ ":" ++ href
  else if strStartsWith href "/" then originOf base ++ href
  else originOf base ++ dirOf (pathOf base) ++ href

/-- Scan for the Markdown link pattern `\[([^\]]+)\]\(([^)]+)\)`: yields
(match start, match end, anchor text, href), advancing one character on
failure and past the match on success. -/
def mdLinkScan : Nat → Nat → List Char → List (Nat × Nat × String × String)
  | 0, _, _ => []
  | _ + 1, _, [] => []
  | fuel + 1, pos, c :: rest =>
    if c = '[' then
      let label := rest.takeWhile (fun x => x ≠ ']')
      let rest2 := rest.dropWhile (fun x => x ≠ ']')
      match label, rest2 with
      | _ :: _, ']' :: '(' :: rest3 =>
        let href := rest3.takeWhile (fun x => x ≠ ')')
        let rest4 := rest3.dropWhile (fun x => x ≠ ')')
        match href, rest4 with
        | _ :: _, ')' :: after =>
          let len := 1 + label.length + 2 + href.length + 1
          (pos, pos + len, String.mk label, String.mk href)
            :: mdLinkScan fuel (pos + len) after
        | _, _ => mdLinkScan fuel (pos + 1) rest
      | _, _ => mdLinkScan fuel (pos + 1) rest
    else mdLinkScan fuel (pos + 1) rest

/-- Scan for plain double-quoted HTML anchors `<a href="URL">TEXT</a>`,
yielding (href, anchor text) pairs.  This models the BeautifulSoup anchor
walk of `extract_links` for well-formed anchors; the anchor's parent-element
context is approximated by the anchor text itself. -/
def htmlAnchorScan : Nat → List Char → List (String × String)
  | 0, _ => []
  | _ + 1, [] => []
  | fuel + 1, c :: rest =>
    if c = '<' ∧ "a href=\"".toList.isPrefixOf rest then
      let rest2 := rest.drop 8
      let href := rest2.takeWhile (fun x => x ≠ '"')
      let rest3 := (rest2.dropWhile (fun x => x ≠ '"')).drop 1
      match rest3 with
      | '>' :: rest4 =>
        let label := rest4.takeWhile (fun x => x ≠ '<')
        let after := rest4.dropWhile (fun x => x ≠ '<')
        (String.mk href, String.mk label) :: htmlAnchorScan fuel after
      | _ => htmlAnchorScan fuel rest
    else htmlAnchorScan fuel rest

/-- The HTML half of `LinkCrawler.extract_links`: skip fragment, script,
mailto and tel references, resolve against the base URL, and keep only links
whose host equals the base document's host. -/
def htmlLinks (page_text base_url : String) : List Link :=
  (htmlAnchorScan (page_text.length + 1) page_text.toList).filterMap fun p =>
    let href := p.1
    if href = "" ∨ strStartsWith href "#" ∨ strStartsWith href "javascript:"
        ∨ strStartsWith href "mailto:" ∨ strStartsWith href "tel:" then none
    else
      let full_url := urljoin base_url href
      if netlocOf full_url ≠ netlocOf base_url then none
      else some { url := full_url, text := p.2, context := pyTake 200 p.2 }

/-- The Markdown half of `LinkCrawler.extract_links`, appended after the HTML
links: a match is skipped when its href starts with `#`, or when it starts
with `http://` and resolves to a different host (the two conditions combine
exactly as in the source:
`href.startswith('#') or href.startswith('http://') and netloc != netloc`);
the surrounding 100 characters on each side become the context, and an URL
already collected is not added again. -/
def mdLinkFold (page_text base_url : String) (links : List Link)
    (ms : List (Nat × Nat × String × String)) : List Link :=
  ms.foldl (fun links m =>
    let mstart := m.1
    let mend := m.2.1
    let text := m.2.2.1
    let href := m.2.2.2
    if strStartsWith href "#"
        ∨ (strStartsWith href "http://" ∧ netlocOf href ≠ netlocOf base_url) then
      links
    else
      let full_url := urljoin base_url href
      let context := pySlice page_text (mstart - 100)
        (min page_text.length (mend + 100))
      if links.any (fun l => l.url == full_url) then links
      else links ++ [{ url := full_url, text := text, context := context }])
    links

/-- Model of `LinkCrawler.extract_links`. -/
def extract_links (page_text base_url : String) : List Link :=
  mdLinkFold page_text base_url (htmlLinks page_text base_url)
    (mdLinkScan (page_text.length + 1) 0 page_text.toList)

/-- The documentation-keyword bonus set of `score_links_for_query`. -/
def doc_keywords : List String :=
  ["setup", "install", "guide", "tutorial", "getting", "started",
   "development", "environment", "configuration", "wsl", "windows",
   "linux", "mac", "docker", "vagrant", "prerequisites"]

/-- Python `set(s.lower().split())` as a duplicate-free word list. -/
def wordSet (s : String) : List String :=
  (pySplitWhitespace (strLower s)).eraseDups

/-- Size of the intersection of two word sets. -/
def interCount (a b : List String) : Nat :=
  (a.filter (fun w => b.contains w)).length

/-- The relevance score of one link:
`text_overlap * 3 + context_overlap + keyword_bonus * 2`. -/
def score_link (query : String) (l : Link) : Nat :=
  let query_words := wordSet query
  let text_words := wordSet l.text
  let context_words := wordSet l.context
  let text_overlap := interCount query_words text_words
  let context_overlap := interCount query_words context_words
  let keyword_bonus := (query_words.filter (fun w =>
    doc_keywords.contains w && (text_words.contains w || context_words.contains w))).length
  text_overlap * 3 + context_overlap + keyword_bonus * 2

/-- Stable descending insertion by relevance score. -/
def insertByRelevanceDesc (v : ScoredLink) : List ScoredLink → List ScoredLink
  | [] => [v]
  | w :: rest =>
    if v.relevance_score < w.relevance_score then w :: insertByRelevanceDesc v rest
    else v :: w :: rest

def sortByRelevanceDesc : List ScoredLink → List ScoredLink
  | [] => []
  | v :: rest => insertByRelevanceDesc v (sortByRelevanceDesc rest)

/-- Model of `LinkCrawler.score_links_for_query`: score every link, discard zero
scores, sort by descending relevance. -/
def score_links_for_query (links : List Link) (query : String) : List ScoredLink :=
  sortByRelevanceDesc (links.filterMap fun l =>
    let s := score_link query l
    if 0 < s then some { url := l.url, text := l.text, context := l.context,
                         relevance_score := s }
    else none)

/-- The URLs `LinkCrawler.crawl_relevant_pages` fetches: the top
`max_pages` scored links. -/
def crawl_candidate_urls (max_pages : Nat) (page_text base_url query : String) :
    List String :=
  ((score_links_for_query (extract_links page_text base_url) query).take
    max_pages).map ScoredLink.url

end LinkCrawler

/-- Settings for the concrete chunk-failure scenario (a legitimately
configurable chunk budget small enough to split a short section into three
chunks). -/
def cxSettings : Settings :=
  { defaultSettings with section_small_threshold := 1, chunk_max_tokens := 2 }

/-- A large section that the splitter cuts into three one-sentence chunks. -/
def cxSection : SectionData :=
  { section_id := "sec1"
    heading := "H"
    heading_level := 1
    raw_text := "aa bb. cc dd. ee ff."
    token_count := 6
    is_large := true }

/-- A generative backend that fails exactly on the fact-extraction request
for the second chunk and answers `OK-TEXT` to everything else. -/
def cxLLM : LLM := fun req =>
  if req.prompt = build_chunk_fact_extraction_prompt "cc dd." "H" then
    Except.error "rate limited"
  else Except.ok "OK-TEXT"

/-- Pipeline state holding just the three-chunk section, cursor at 0. -/
def cxState : PipeState :=
  { sections := [cxSection]
    current_section_index := 0
    section_summaries := []
    page_type := "docs" }

/-- A retrieved section whose context block is exactly 160 characters, hence
40 estimated tokens. -/
def c7s40 : PineconeClient.ResultDict :=
  { section_id := "s"
    score := 0
    text := String.mk (List.replicate 139 'a')
    heading := "H"
    summary_text := ""
    embedding_type := EmbeddingType.source }

/-- A retrieved section whose context block is exactly 144 characters, hence
36 estimated tokens. -/
def c7s36 : PineconeClient.ResultDict :=
  { section_id := "g"
    score := 0
    text := String.mk (List.replicate 123 'a')
    heading := "G"
    summary_text := ""
    embedding_type := EmbeddingType.source }

/-- The overflowing retrieved section of the context-budget scenario. -/
def c7sOver : PineconeClient.ResultDict :=
  { section_id := "z"
    score := 0
    text := String.mk (List.replicate 100 'b')
    heading := "Z"
    summary_text := ""
    embedding_type := EmbeddingType.source }

/-- Retrieved sections filling 1996 of the 2000-token context budget before a
final overflowing section: 49 blocks of 40 tokens, one of 36 tokens, then the
overflow. -/
def c7Sections : List PineconeClient.ResultDict :=
  List.replicate 49 c7s40 ++ [c7s36, c7sOver]

/-- Markdown page whose only link is cross-origin over https. -/
def c6PageText : String :=
  "Read the [setup guide](https://evil.example.org/setup) before starting setup."

def c6BaseUrl : String := "http://docs.example.com/guide"

/-- Non-blank text with surrounding whitespace and no heading markers. -/
def c8Text : String :=
  "  The quick brown fox jumps over the lazy dog today.  "

/-- No two records of the store share a `(namespace, id)` key: the store's
records are independently addressable by id, which every upsert preserves. -/
def PineconeClient.NoDupKeys (store : PineconeClient.VecStore) : Prop :=
  List.Pairwise (fun a b => a.ns ≠ b.ns ∨ a.id ≠ b.id) store

/-- Key test for a stored record. -/
def PineconeClient.keyMatches (ns id : String) (w : PineconeClient.StoredVec) : Bool :=
  w.ns == ns && w.id == id

/-- Texts containing neither `#` nor `<` contain no heading marker for either
heading regex. -/
def SectionExtractor.noHeadingMarkers (text : String) : Prop :=
  ∀ c ∈ text.toList, c ≠ '#' ∧ c ≠ '<'

/-- First section dict of the idempotence witness scenario. -/
def wd1 : PineconeClient.SectionDict :=
  { section_id := "s", heading := "h1", text := "first text", summary_text := "" }

/-- Second section dict of the idempotence witness scenario (same section id,
newer content). -/
def wd2 : PineconeClient.SectionDict :=
  { section_id := "s", heading := "h2", text := "second text", summary_text := "sum" }

/-- Section dict of the role-leak scenario: one section carrying both its
source text and its summary text. -/
def c1qSection : PineconeClient.SectionDict :=
  { section_id := "s", heading := "h", text := "source text",
    summary_text := "the summary" }

/-- Store of the role-leak scenario: section `s` of page `u` stored under
`role=source` and then under `role=summary` via `store_sections`, so the
same section id holds records under both roles. -/
def c1Store : PineconeClient.VecStore :=
  RetrievalService.store_sections (fun _ => [1])
    (RetrievalService.store_sections (fun _ => [1]) [] "u" [c1qSection]
      EmbeddingType.source)
    "u" [c1qSection] EmbeddingType.summary

/-- Decidable equality of generative-call results (used to evaluate the
concrete scenarios). -/
instance : DecidableEq (Except String String) := fun a b =>
  match a, b with
  | Except.ok x, Except.ok y =>
    if h : x = y then isTrue (by rw [h])
    else isFalse (by intro hc; cases hc; exact h rfl)
  | Except.ok _, Except.error _ => isFalse (by intro hc; cases hc)
  | Except.error _, Except.ok _ => isFalse (by intro hc; cases hc)
  | Except.error x, Except.error y =>
    if h : x = y then isTrue (by rw [h])
    else isFalse (by intro hc; cases hc; exact h rfl)

/-!
Theorems.  Each claim of the specification is settled below; helper lemmas
precede the claim theorems they support.
-/

namespace PineconeClient

theorem upsertOne_mem {store : VecStore} {v w : StoredVec}
    (h : w ∈ upsertOne store v) : w ∈ store ∨ w = v := by
  induction store with
  | nil =>
    simp only [upsertOne, List.mem_singleton] at h
    exact Or.inr h
  | cons a rest ih =>
    by_cases hk : v.ns = a.ns ∧ v.id = a.id
    · simp only [upsertOne, if_pos hk, List.mem_cons] at h
      rcases h with h | h
      · exact Or.inr h
      · exact Or.inl (List.mem_cons_of_mem a h)
    · simp only [upsertOne, if_neg hk, List.mem_cons] at h
      rcases h with h | h
      · exact Or.inl (h ▸ List.mem_cons_self a rest)
      · rcases ih h with h2 | h2
        · exact Or.inl (List.mem_cons_of_mem a h2)
        · exact Or.inr h2

theorem upsertOne_noDupKeys {store : VecStore} {v : StoredVec}
    (h : NoDupKeys store) : NoDupKeys (upsertOne store v) := by
  induction store with
  | nil =>
    simp [upsertOne, NoDupKeys]
  | cons a rest ih =>
    rcases List.pairwise_cons.mp h with ⟨ha, hrest⟩
    by_cases hk : v.ns = a.ns ∧ v.id = a.id
    · simp only [upsertOne, if_pos hk]
      refine List.pairwise_cons.mpr ⟨?_, hrest⟩
      intro b hb
      have := ha b hb
      rcases this with h1 | h1
      · exact Or.inl (hk.1 ▸ h1)
      · exact Or.inr (hk.2 ▸ h1)
    · simp only [upsertOne, if_neg hk]
      refine List.pairwise_cons.mpr ⟨?_, ih hrest⟩
      intro b hb
      rcases upsertOne_mem hb with h1 | h1
      · exact ha b h1
      · subst h1
        by_cases hns : a.ns = b.ns
        · refine Or.inr fun hid => hk ⟨hns.symm, hid.symm⟩
        · exact Or.inl hns

theorem upsertOne_filter_key {store : VecStore} {v : StoredVec}
    (h : NoDupKeys store) :
    (upsertOne store v).filter (keyMatches v.ns v.id) = [v] := by
  induction store with
  | nil =>
    simp [upsertOne, keyMatches]
  | cons a rest ih =>
    rcases List.pairwise_cons.mp h with ⟨ha, hrest⟩
    by_cases hk : v.ns = a.ns ∧ v.id = a.id
    · simp only [upsertOne, if_pos hk]
      rw [List.filter_cons_of_pos (by simp [keyMatches])]
      have hnil : rest.filter (keyMatches v.ns v.id) = [] := by
        rw [List.filter_eq_nil_iff]
        intro b hb
        have := ha b hb
        simp only [keyMatches, Bool.and_eq_true, beq_iff_eq]
        rintro ⟨h1, h2⟩
        rcases this with h3 | h3
        · exact h3 (hk.1.symm.trans h1.symm)
        · exact h3 (hk.2.symm.trans h2.symm)
      rw [hnil]
    · simp only [upsertOne, if_neg hk]
      rw [List.filter_cons_of_neg ?_, ih hrest]
      simp only [keyMatches, Bool.and_eq_true, beq_iff_eq]
      rintro ⟨h1, h2⟩
      exact hk ⟨h1.symm, h2.symm⟩

theorem upsert_sections_single (store : VecStore) (page_url : String)
    (s : SectionDict) (e : List Int) (r : EmbeddingType) :
    upsert_sections store page_url [s] [e] r
      = upsertOne store (sectionVector page_url r s e) := rfl

end PineconeClient

/-- Claim C2: the stored vector id is a deterministic function of
`(document_id, section_id, role)`, and storing the same triple twice leaves
exactly one retrievable record under that key, carrying the latest stored
content. -/
theorem store_idempotence (store : PineconeClient.VecStore)
    (h : PineconeClient.NoDupKeys store) (page_url : String)
    (r : EmbeddingType) (s1 s2 : PineconeClient.SectionDict)
    (e1 e2 : List Int) (hsid : s1.section_id = s2.section_id) :
    PineconeClient.generate_section_id page_url s1.section_id r
      = PineconeClient.generate_section_id page_url s2.section_id r ∧
    (PineconeClient.upsert_sections
        (PineconeClient.upsert_sections store page_url [s1] [e1] r)
        page_url [s2] [e2] r).filter
      (PineconeClient.keyMatches (PineconeClient.generate_namespace page_url)
        (PineconeClient.generate_section_id page_url s2.section_id r))
      = [PineconeClient.sectionVector page_url r s2 e2] ∧
    PineconeClient.NoDupKeys
      (PineconeClient.upsert_sections
        (PineconeClient.upsert_sections store page_url [s1] [e1] r)
        page_url [s2] [e2] r) := by
  rw [PineconeClient.upsert_sections_single, PineconeClient.upsert_sections_single]
  refine ⟨by rw [hsid], ?_, ?_⟩
  · have h2 := @PineconeClient.upsertOne_filter_key
      (PineconeClient.upsertOne store (PineconeClient.sectionVector page_url r s1 e1))
      (PineconeClient.sectionVector page_url r s2 e2)
      (PineconeClient.upsertOne_noDupKeys h)
    simpa [PineconeClient.sectionVector] using h2
  · exact PineconeClient.upsertOne_noDupKeys (PineconeClient.upsertOne_noDupKeys h)

/-- Witness for claim C2: the idempotence theorem applied to the empty store
and two concrete stores of the same `("u", "s", source)` triple. -/
theorem store_idempotence_witness :
    PineconeClient.generate_section_id "u" wd1.section_id EmbeddingType.source
      = PineconeClient.generate_section_id "u" wd2.section_id EmbeddingType.source ∧
    (PineconeClient.upsert_sections
        (PineconeClient.upsert_sections [] "u" [wd1] [[1]] EmbeddingType.source)
        "u" [wd2] [[2]] EmbeddingType.source).filter
      (PineconeClient.keyMatches (PineconeClient.generate_namespace "u")
        (PineconeClient.generate_section_id "u" wd2.section_id EmbeddingType.source))
      = [PineconeClient.sectionVector "u" EmbeddingType.source wd2 [2]] ∧
    PineconeClient.NoDupKeys
      (PineconeClient.upsert_sections
        (PineconeClient.upsert_sections [] "u" [wd1] [[1]] EmbeddingType.source)
        "u" [wd2] [[2]] EmbeddingType.source) :=
  store_idempotence [] List.Pairwise.nil "u" EmbeddingType.source wd1 wd2 [1] [2] rfl

namespace PineconeClient

theorem mem_insertByScoreDesc {score : StoredVec → Int} {v x : StoredVec}
    {l : List StoredVec} (h : x ∈ insertByScoreDesc score v l) :
    x = v ∨ x ∈ l := by
  induction l with
  | nil =>
    simp only [insertByScoreDesc, List.mem_singleton] at h
    exact Or.inl h
  | cons w rest ih =>
    by_cases hc : score v < score w
    · simp only [insertByScoreDesc, if_pos hc, List.mem_cons] at h
      rcases h with h | h
      · exact Or.inr (h ▸ List.mem_cons_self w rest)
      · rcases ih h with h2 | h2
        · exact Or.inl h2
        · exact Or.inr (List.mem_cons_of_mem w h2)
    · simp only [insertByScoreDesc, if_neg hc, List.mem_cons] at h
      rcases h with h | h
      · exact Or.inl h
      · exact Or.inr (List.mem_cons.mpr h)

theorem mem_sortByScoreDesc {score : StoredVec → Int} {x : StoredVec}
    {l : List StoredVec} (h : x ∈ sortByScoreDesc score l) : x ∈ l := by
  induction l with
  | nil =>
    simp only [sortByScoreDesc] at h
    exact absurd h (List.not_mem_nil x)
  | cons w rest ih =>
    simp only [sortByScoreDesc] at h
    rcases mem_insertByScoreDesc h with h2 | h2
    · exact h2 ▸ List.mem_cons_self w rest
    · exact List.mem_cons_of_mem w (ih h2)

/-- Every result of `search_sections` carries the requested role: the query
filter admits only records whose stored metadata role equals it. -/
theorem search_sections_role (score : StoredVec → Int) (store : VecStore)
    (page_url : String) (et : EmbeddingType) (top_k : Nat) (thr : Int) :
    ∀ res ∈ search_sections score store page_url et top_k thr,
      res.embedding_type = et := by
  intro res hres
  simp only [search_sections] at hres
  obtain ⟨m, hm, rfl⟩ := List.mem_map.mp hres
  have hm2 : m ∈ indexQuery score store (generate_namespace page_url) top_k et :=
    (List.mem_filter.mp hm).1
  simp only [indexQuery] at hm2
  have hm3 := mem_sortByScoreDesc (List.take_subset _ _ hm2)
  have hm4 := (List.mem_filter.mp hm3).2
  simp only [Bool.and_eq_true, beq_iff_eq] at hm4
  exact hm4.2

theorem mem_insertResultByScoreDesc {v x : ResultDict} {l : List ResultDict}
    (h : x ∈ RetrievalService.insertResultByScoreDesc v l) : x = v ∨ x ∈ l := by
  induction l with
  | nil =>
    simp only [RetrievalService.insertResultByScoreDesc, List.mem_singleton] at h
    exact Or.inl h
  | cons w rest ih =>
    by_cases hc : v.score < w.score
    · simp only [RetrievalService.insertResultByScoreDesc, if_pos hc,
        List.mem_cons] at h
      rcases h with h | h
      · exact Or.inr (h ▸ List.mem_cons_self w rest)
      · rcases ih h with h2 | h2
        · exact Or.inl h2
        · exact Or.inr (List.mem_cons_of_mem w h2)
    · simp only [RetrievalService.insertResultByScoreDesc, if_neg hc,
        List.mem_cons] at h
      rcases h with h | h
      · exact Or.inl h
      · exact Or.inr (List.mem_cons.mpr h)

theorem mem_sortResultsByScoreDesc {x : ResultDict} {l : List ResultDict}
    (h : x ∈ RetrievalService.sortResultsByScoreDesc l) : x ∈ l := by
  induction l with
  | nil =>
    simp only [RetrievalService.sortResultsByScoreDesc] at h
    exact absurd h (List.not_mem_nil x)
  | cons w rest ih =>
    simp only [RetrievalService.sortResultsByScoreDesc] at h
    rcases mem_insertResultByScoreDesc h with h2 | h2
    · exact h2 ▸ List.mem_cons_self w rest
    · exact List.mem_cons_of_mem w (ih h2)

theorem retrieve_sections_role (scoreOf : String → StoredVec → Int)
    (store : VecStore) (page_url query : String) (et : EmbeddingType)
    (top_k : Nat) (thr : Int) :
    ∀ res ∈ RetrievalService.retrieve_sections scoreOf store page_url query et top_k thr,
      res.embedding_type = et := by
  intro res hres
  exact search_sections_role (scoreOf query) store page_url et top_k thr res
    (mem_sortResultsByScoreDesc hres)

end PineconeClient

/-- Supporting theorem on the filtered search path: a `search_sections`
query under one role returns only results carrying that role, hence never a
record stored under the other role (every record an upsert under role `r2`
adds carries role `r2` in its metadata); and `handle_followup_node`'s
retrieval searches with role `source`.  The non-streaming node path is
role-safe — the leak is in the legacy streaming path. -/
theorem role_isolation (cfg : Settings)
    (scoreOf : String → PineconeClient.StoredVec → Int)
    (q : PineconeClient.StoredVec → Int) (store : PineconeClient.VecStore)
    (page_url page_url2 user_query : String) (sec : PineconeClient.SectionDict)
    (emb : List Int) (top_k : Nat) (thr : Int) (r r2 : EmbeddingType)
    (hne : r ≠ r2) :
    (∀ res ∈ PineconeClient.search_sections q
        (PineconeClient.upsert_sections store page_url2 [sec] [emb] r2)
        page_url r top_k thr,
      res.embedding_type = r ∧ res.embedding_type ≠ r2) ∧
    (∀ w ∈ PineconeClient.upsert_sections store page_url2 [sec] [emb] r2,
      w ∈ store ∨ w.metadata.embedding_type = r2) ∧
    (∀ res ∈ handle_followup_retrieve cfg scoreOf
        (PineconeClient.upsert_sections store page_url2 [sec] [emb] r2)
        page_url user_query,
      res.embedding_type = EmbeddingType.source) := by
  refine ⟨?_, ?_, ?_⟩
  · intro res hres
    have h1 := PineconeClient.search_sections_role q _ page_url r top_k thr res hres
    exact ⟨h1, h1 ▸ hne⟩
  · intro w hw
    rw [PineconeClient.upsert_sections_single] at hw
    rcases PineconeClient.upsertOne_mem hw with h1 | h1
    · exact Or.inl h1
    · subst h1
      exact Or.inr rfl
  · intro res hres
    exact PineconeClient.retrieve_sections_role scoreOf _ page_url user_query
      EmbeddingType.source cfg.top_k_retrieval cfg.similarity_threshold res hres

/-- Concrete instance of the filtered-search theorem: the empty store, a
section stored under `summary`, and a search plus node follow-up under
`source`. -/
theorem role_isolation_witness :
    (∀ res ∈ PineconeClient.search_sections (fun _ => 1)
        (PineconeClient.upsert_sections [] "u" [wd1] [[1]] EmbeddingType.summary)
        "u" EmbeddingType.source 5 0,
      res.embedding_type = EmbeddingType.source ∧
      res.embedding_type ≠ EmbeddingType.summary) ∧
    (∀ w ∈ PineconeClient.upsert_sections [] "u" [wd1] [[1]] EmbeddingType.summary,
      w ∈ ([] : PineconeClient.VecStore) ∨
      w.metadata.embedding_type = EmbeddingType.summary) ∧
    (∀ res ∈ handle_followup_retrieve defaultSettings (fun _ _ => 1)
        (PineconeClient.upsert_sections [] "u" [wd1] [[1]] EmbeddingType.summary)
        "u" "what is this",
      res.embedding_type = EmbeddingType.source) :=
  role_isolation defaultSettings (fun _ _ => 1) (fun _ => 1) [] "u" "u"
    "what is this" wd1 [1] 5 0 EmbeddingType.source EmbeddingType.summary
    (by decide)

/-- Claim C1 evaluated on the code at a failing input: with section `s` of
page `u` stored under both `role=source` and `role=summary` (the claim's own
precondition), the follow-up retrieval that is actually in effect for the
streaming endpoint — the legacy `handle_followup_streaming`, which shadows
the role-filtered definition — returns the record stored under
`role=summary` (identified by its vector id) among the chunks used to
ground the answer, so follow-up question answering does not search with
`role=source` only. -/
theorem followup_streaming_role_leak :
    (c1Store.filter (fun w => w.metadata.section_id == "s"
      && w.metadata.embedding_type == EmbeddingType.source)).length = 1 ∧
    (c1Store.filter (fun w => w.metadata.section_id == "s"
      && w.metadata.embedding_type == EmbeddingType.summary)).length = 1 ∧
    (∃ w ∈ c1Store,
      w.id = PineconeClient.generate_section_id "u" "s" EmbeddingType.summary ∧
      w.metadata.embedding_type = EmbeddingType.summary) ∧
    PineconeClient.generate_section_id "u" "s" EmbeddingType.summary ∈
      (handle_followup_streaming_retrieve defaultSettings (fun _ _ => 50)
        c1Store "u" "q").map PineconeClient.ChunkResult.chunk_id := by decide

theorem map_set_of_eq {α β : Type} (l : List α) (i : Nat) (a : α) (f : α → β)
    (h : i < l.length) (hfa : f a = f (l.get ⟨i, h⟩)) :
    (l.set i a).map f = l.map f := by
  apply List.ext_getElem
  · simp
  · intro j h1 h2
    simp only [List.length_map, List.length_set] at h1
    rw [List.getElem_map, List.getElem_map, List.getElem_set]
    by_cases hij : i = j
    · subst hij
      simpa using hfa
    · rw [if_neg hij]

theorem process_section_node_is_large (cfg : Settings) (llm : LLM)
    (st : PipeState) :
    (process_section_node cfg llm st).sections.map SectionData.is_large
      = st.sections.map SectionData.is_large := by
  by_cases h : st.current_section_index < st.sections.length
  · cases hE : sectionSummaryE cfg llm st.page_type
        (st.sections.get ⟨st.current_section_index, h⟩) with
    | ok summary =>
      simp only [process_section_node, dif_pos h, hE]
      exact map_set_of_eq _ _ _ _ h rfl
    | error e =>
      simp only [process_section_node, dif_pos h, hE]
  · simp only [process_section_node, dif_neg h]

/-- Claim C3: `is_large` is fixed at extraction time as
`token_count > small_threshold`, the section loop never changes any
section's `is_large` flag, and the processor takes the hierarchical path
exactly when `is_large` holds and the direct path otherwise. -/
theorem adaptive_branching (cfg : Settings) (llm : LLM) (page_type : String) :
    (∀ raw : SectionExtractor.ExtractedSection,
      ((toSectionData cfg raw).is_large = true
        ↔ cfg.section_small_threshold < raw.token_count)) ∧
    (∀ st : PipeState,
      (process_section_node cfg llm st).sections.map SectionData.is_large
        = st.sections.map SectionData.is_large) ∧
    (∀ sec : SectionData, sec.is_large = true →
      sectionSummaryE cfg llm page_type sec
        = _process_large_section cfg llm page_type sec) ∧
    (∀ sec : SectionData, sec.is_large = false →
      sectionSummaryE cfg llm page_type sec
        = _process_small_section llm page_type sec) := by
  refine ⟨?_, process_section_node_is_large cfg llm, ?_, ?_⟩
  · intro raw
    simp [toSectionData, SectionExtractor.is_large_section]
  · intro sec hsec
    simp [sectionSummaryE, hsec]
  · intro sec hsec
    simp [sectionSummaryE, hsec]

/-- Witness for claim C3: the branching theorem at a concrete extracted
section (token count 500 against the default 400 threshold), a concrete
pipeline state, and concrete large/small sections. -/
theorem adaptive_branching_witness :
    ((toSectionData defaultSettings
        { section_id := "x", heading := "X", heading_level := 1,
          raw_text := "t", start_pos := 0, end_pos := 1,
          token_count := 500 }).is_large = true
      ↔ defaultSettings.section_small_threshold < 500) ∧
    ((process_section_node cxSettings cxLLM cxState).sections.map
        SectionData.is_large
      = cxState.sections.map SectionData.is_large) ∧
    sectionSummaryE cxSettings cxLLM "docs" cxSection
      = _process_large_section cxSettings cxLLM "docs" cxSection ∧
    sectionSummaryE cxSettings cxLLM "docs"
        { cxSection with is_large := false }
      = _process_small_section cxLLM "docs"
        { cxSection with is_large := false } :=
  ⟨(adaptive_branching defaultSettings cxLLM "docs").1 _,
   (adaptive_branching cxSettings cxLLM "docs").2.1 cxState,
   (adaptive_branching cxSettings cxLLM "docs").2.2.1 cxSection rfl,
   (adaptive_branching cxSettings cxLLM "docs").2.2.2 _ rfl⟩

theorem dictLookup_dictInsert_self (m : List (String × String)) (k v : String) :
    dictLookup (dictInsert m k v) k = some v := by
  induction m with
  | nil => simp [dictInsert, dictLookup]
  | cons p rest ih =>
    by_cases hp : p.1 = k
    · simp [dictInsert, dictLookup, hp]
    · simp [dictInsert, dictLookup, hp, ih]

theorem dictLookup_dictInsert_isSome (m : List (String × String))
    (k v k2 : String) (h : (dictLookup m k2).isSome) :
    (dictLookup (dictInsert m k v) k2).isSome := by
  induction m with
  | nil => simp [dictLookup] at h
  | cons p rest ih =>
    rcases p with ⟨a, b⟩
    by_cases hp : a = k
    · simp only [dictInsert, if_pos hp]
      by_cases hk2 : k = k2
      · simp [dictLookup, hk2]
      · simp only [dictLookup, if_neg hk2]
        have ha2 : ¬ a = k2 := fun hc => hk2 (hp ▸ hc)
        simpa [dictLookup, ha2] using h
    · simp only [dictInsert, if_neg hp]
      by_cases hp2 : a = k2
      · simp [dictLookup, hp2]
      · simp only [dictLookup, if_neg hp2] at h ⊢
        exact ih h

theorem mapM_error_of_mem {α : Type} (l : List α)
    (f : α → Except String String)
    (h : ∃ a ∈ l, ∃ e, f a = Except.error e) :
    ∃ e, l.mapM f = Except.error e := by
  induction l with
  | nil => simp at h
  | cons a rest ih =>
    rcases h with ⟨b, hb, e, he⟩
    rcases List.mem_cons.mp hb with hb | hb
    · subst hb
      refine ⟨e, ?_⟩
      rw [List.mapM_cons, he]
      rfl
    · cases hfa : f a with
      | error e2 =>
        refine ⟨e2, ?_⟩
        rw [List.mapM_cons, hfa]
        rfl
      | ok v =>
        rcases ih ⟨b, hb, e, he⟩ with ⟨e3, he3⟩
        refine ⟨e3, ?_⟩
        rw [List.mapM_cons, hfa, he3]
        rfl

/-- Claim C4 (amended): a failed chunk fact-extraction call fails the whole
hierarchical summarization of its section (no chunk-level recovery), and a
section whose processing fails receives the `[Error summarizing: <heading>]`
placeholder while the loop cursor still advances to the next section. -/
theorem section_failure_containment (cfg : Settings) (llm : LLM) :
    (∀ (page_type : String) (sec : SectionData),
      (∃ c ∈ _split_section_into_chunks cfg sec, ∃ e,
        llm (fact_extraction_request sec.heading c) = Except.error e) →
      ∃ e, _process_large_section cfg llm page_type sec = Except.error e) ∧
    (∀ (st : PipeState) (h : st.current_section_index < st.sections.length) (e : String),
      sectionSummaryE cfg llm st.page_type
          (st.sections.get ⟨st.current_section_index, h⟩) = Except.error e →
      dictLookup (process_section_node cfg llm st).section_summaries
          (st.sections.get ⟨st.current_section_index, h⟩).section_id
        = some ("[Error summarizing: "
            ++ (st.sections.get ⟨st.current_section_index, h⟩).heading ++ "]") ∧
      (process_section_node cfg llm st).current_section_index
        = st.current_section_index + 1) := by
  constructor
  · intro page_type sec hfail
    rcases mapM_error_of_mem _ _ hfail with ⟨e, he⟩
    refine ⟨e, ?_⟩
    simp only [_process_large_section, he]
    rfl
  · intro st h e hE
    constructor
    · simp only [process_section_node, dif_pos h, hE]
      exact dictLookup_dictInsert_self _ _ _
    · simp only [process_section_node, dif_pos h, hE]

/-- Witness for claim C4: the containment theorem at the concrete
three-chunk section whose second fact-extraction call fails. -/
theorem section_failure_containment_witness :
    (∃ e, _process_large_section cxSettings cxLLM "docs" cxSection
      = Except.error e) ∧
    (dictLookup (process_section_node cxSettings cxLLM cxState).section_summaries
        cxSection.section_id
      = some ("[Error summarizing: " ++ cxSection.heading ++ "]") ∧
    (process_section_node cxSettings cxLLM cxState).current_section_index = 1) :=
  ⟨(section_failure_containment cxSettings cxLLM).1 "docs" cxSection
    ⟨{ index := 1, text := "cc dd.", heading := "H", section_id := "sec1",
       token_count := 2 },
     by decide, "rate limited", by decide⟩,
   (section_failure_containment cxSettings cxLLM).2 cxState (by decide)
     "rate limited" (by decide)⟩

/-- Counterexample to claim C4 as stated: with three chunks of which exactly
one fact-extraction call fails (the other calls, and the summarize-from-facts
call over the two successful fact blocks, all succeed), the pipeline does not
produce a facts-based section summary — it records the error placeholder for
the whole section. -/
theorem chunk_failure_not_contained_cx :
    (∃ c ∈ _split_section_into_chunks cxSettings cxSection,
      cxLLM (fact_extraction_request cxSection.heading c)
        = Except.error "rate limited") ∧
    (_split_section_into_chunks cxSettings cxSection).length = 3 ∧
    (∀ c ∈ _split_section_into_chunks cxSettings cxSection, c.text ≠ "cc dd." →
      cxLLM (fact_extraction_request cxSection.heading c) = Except.ok "OK-TEXT") ∧
    cxLLM { prompt := build_section_summary_prompt_from_facts
              "OK-TEXT\nOK-TEXT" cxSection.heading "docs"
            system_prompt := SYSTEM_PROMPT_section_summary
            max_tokens := 512
            temperature_tenths := 5 } = Except.ok "OK-TEXT" ∧
    (process_section_node cxSettings cxLLM cxState).section_summaries
      = [("sec1", "[Error summarizing: H]")] ∧
    "[Error summarizing: H]" ≠ "OK-TEXT" := by decide

theorem map_mapIdxFrom {α β γ : Type} (f : Nat → α → β) (g : β → γ)
    (h : α → γ) (hc : ∀ i a, g (f i a) = h a) (i : Nat) (l : List α) :
    (mapIdxFrom f i l).map g = l.map h := by
  induction l generalizing i with
  | nil => rfl
  | cons a rest ih => simp [mapIdxFrom, hc, ih]

theorem chunkLoop_join (max_chunk_tokens : Nat) (sents : List String) :
    ∀ (cur : List String) (tok : Nat),
      ((chunkLoop max_chunk_tokens sents cur tok).map Prod.fst).flatten
        = cur ++ ((sents.map pyStrip).filter (fun s => s ≠ "")) := by
  induction sents with
  | nil =>
    intro cur tok
    by_cases hc : cur.isEmpty
    · simp [chunkLoop, hc, List.isEmpty_iff.mp hc]
    · simp [chunkLoop, hc]
  | cons s rest ih =>
    intro cur tok
    by_cases hs : pyStrip s = ""
    · simp [chunkLoop, hs, ih cur tok]
    · by_cases hcond : max_chunk_tokens < tok + sentenceTokens (pyStrip s)
          ∧ ¬ cur = []
      · simp [chunkLoop, hs, hcond, ih, List.append_assoc]
      · simp [chunkLoop, hs, hcond, ih, List.append_assoc]

/-- Claim C5: the chunk splitter partitions the section's stripped, non-empty
sentence sequence — each chunk's text rejoins its own sentence group, and the
groups concatenated in index order are exactly the section's sentence
sequence, with nothing dropped and nothing duplicated. -/
theorem chunk_reconstruction (cfg : Settings) (sec : SectionData) :
    ((_split_section_into_chunks cfg sec).map ChunkData.text
      = (chunkGroups cfg sec.raw_text).map (fun g => joinSep ". " g.1 ++ ".")) ∧
    ((chunkGroups cfg sec.raw_text).map Prod.fst).flatten
      = sectionSentences sec.raw_text := by
  constructor
  · exact @map_mapIdxFrom (List String × Nat) ChunkData String (fun i g => { index := i, text := joinSep ". " g.1 ++ ".", heading := sec.heading, section_id := sec.section_id, token_count := g.2 }) ChunkData.text (fun g => joinSep ". " g.1 ++ ".") (fun i a => rfl) 0 (chunkGroups cfg sec.raw_text)
  · have h := chunkLoop_join cfg.chunk_max_tokens (splitSentences sec.raw_text) [] 0
    rw [List.nil_append] at h
    exact h

/-- Claim C9: whenever the accumulated summary map has exactly one entry,
page synthesis returns that section's summary verbatim with no generative
synthesis call issued (the result does not consult the generative backend at
all). -/
theorem single_section_digest (llm : LLM) (page_title page_type k v : String) :
    synthesize_page_node llm page_title page_type [(k, v)] = (v, false) := rfl

theorem buildCtxLoop_shape (max_tokens : Nat)
    (l : List PineconeClient.ResultDict) :
    ∀ cur : Nat, ∃ k tail, k ≤ l.length ∧
      buildCtxLoop max_tokens l cur = ((l.take k).map ctxEntry) ++ tail ∧
      (tail = [] ∨ ∃ (hk : k < l.length) (n : Nat), 100 < n ∧
        tail = [pyTake n (ctxEntry (l.get ⟨k, hk⟩)) ++ "..."]) := by
  induction l with
  | nil =>
    intro cur
    exact ⟨0, [], Nat.le_refl 0, rfl, Or.inl rfl⟩
  | cons s rest ih =>
    intro cur
    by_cases hov : max_tokens < cur + (ctxEntry s).length / 4
    · by_cases hrem : 100 < (max_tokens - cur) * 4
      · refine ⟨0, [pyTake ((max_tokens - cur) * 4) (ctxEntry s) ++ "..."],
          Nat.zero_le _, ?_, Or.inr ⟨Nat.succ_pos _, (max_tokens - cur) * 4, hrem, rfl⟩⟩
        simp [buildCtxLoop, hov, hrem]
      · refine ⟨0, [], Nat.zero_le _, ?_, Or.inl rfl⟩
        simp [buildCtxLoop, hov, hrem]
    · rcases ih (cur + (ctxEntry s).length / 4) with ⟨k, tail, hk, heq, htail⟩
      refine ⟨k + 1, tail, Nat.succ_le_succ hk, ?_, ?_⟩
      · simp only [buildCtxLoop, if_neg hov]
        rw [heq]
        simp [List.take_succ_cons]
      · rcases htail with h1 | ⟨hk2, n, hn, h2⟩
        · exact Or.inl h1
        · exact Or.inr ⟨Nat.succ_lt_succ hk2, n, hn, h2⟩

/-- Claim C7 (amended): for every non-empty retrieved-section list, the
context is the newline-joined concatenation of whole heading-plus-text
blocks for a prefix of the sections, followed by at most one extra element —
a truncation of the next section's block to the remaining character budget,
emitted only when more than 100 characters of that budget remain (when 100
characters or fewer remain, the overflowing section is dropped instead). -/
theorem build_context_shape (sections : List PineconeClient.ResultDict)
    (max_tokens : Nat) (hne : sections ≠ []) :
    ∃ k tail, k ≤ sections.length ∧
      build_context_from_sections sections max_tokens
        = joinSep "\n" (((sections.take k).map ctxEntry) ++ tail) ∧
      (tail = [] ∨ ∃ (hk : k < sections.length) (n : Nat), 100 < n ∧
        tail = [pyTake n (ctxEntry (sections.get ⟨k, hk⟩)) ++ "..."]) := by
  rcases buildCtxLoop_shape max_tokens sections 0 with ⟨k, tail, hk, heq, htail⟩
  refine ⟨k, tail, hk, ?_, htail⟩
  rw [build_context_from_sections, if_neg ?_, heq]
  simpa using hne

/-- Witness for claim C7: the shape theorem at the concrete 51-section list
and the default 2000-token budget. -/
theorem build_context_shape_witness :
    ∃ k tail, k ≤ c7Sections.length ∧
      build_context_from_sections c7Sections 2000
        = joinSep "\n" (((c7Sections.take k).map ctxEntry) ++ tail) ∧
      (tail = [] ∨ ∃ (hk : k < c7Sections.length) (n : Nat), 100 < n ∧
        tail = [pyTake n (ctxEntry (c7Sections.get ⟨k, hk⟩)) ++ "..."]) :=
  build_context_shape c7Sections 2000 (by decide)

set_option maxRecDepth 4000

/-- Counterexample to claim C7 as stated: with the default 2000-token budget,
50 sections fill 1996 tokens, the 51st would overflow and only 16 characters
of character budget remain, so it is dropped entirely — the context consists
of the first 50 whole blocks with no trace of the 51st section — instead of
the overflowing section being truncated into the context. -/
theorem build_context_drop_cx :
    buildCtxLoop 2000 c7Sections 0 = (c7Sections.take 50).map ctxEntry ∧
    c7Sections.length = 51 ∧
    (c7Sections.get ⟨50, by decide⟩).text ≠ "" ∧
    build_context_from_sections c7Sections 2000
      = joinSep "\n" ((c7Sections.take 50).map ctxEntry) := by
  refine ⟨by decide, by decide, by decide, ?_⟩
  rw [build_context_from_sections, if_neg (by decide)]
  exact congrArg (joinSep "\n") (by decide)

namespace SectionExtractor

theorem splitLinesChars_mem :
    ∀ (cs : List Char), ∀ l ∈ splitLinesChars cs, ∀ c ∈ l, c ∈ cs := by
  intro cs
  induction cs with
  | nil =>
    intro l hl c hc
    simp only [splitLinesChars, List.mem_singleton] at hl
    subst hl
    simp at hc
  | cons a rest ih =>
    intro l hl c hc
    by_cases ha : a = '\n'
    · simp only [splitLinesChars, if_pos ha, List.mem_cons] at hl
      rcases hl with hl | hl
      · subst hl
        simp at hc
      · exact List.mem_cons_of_mem a (ih l hl c hc)
    · simp only [splitLinesChars, if_neg ha] at hl
      cases hsp : splitLinesChars rest with
      | nil =>
        rw [hsp] at hl
        simp only [List.mem_singleton] at hl
        subst hl
        simp only [List.mem_singleton] at hc
        rw [hc]
        exact List.mem_cons_self a rest
      | cons l0 ls =>
        rw [hsp] at hl
        rcases List.mem_cons.mp hl with h1 | h1
        · subst h1
          rcases List.mem_cons.mp hc with h2 | h2
          · subst h2
            exact List.mem_cons_self c rest
          · have hl0 : l0 ∈ splitLinesChars rest := by
              rw [hsp]
              exact List.mem_cons_self l0 ls
            exact List.mem_cons_of_mem a (ih l0 hl0 c h2)
        · have hlm : l ∈ splitLinesChars rest := by
            rw [hsp]
            exact List.mem_cons_of_mem l0 h1
          exact List.mem_cons_of_mem a (ih l hlm c hc)

theorem linesWithPos_mem :
    ∀ (ls : List (List Char)) (pos : Nat), ∀ p ∈ linesWithPos pos ls, p.2 ∈ ls := by
  intro ls
  induction ls with
  | nil =>
    intro pos p hp
    simp [linesWithPos] at hp
  | cons l rest ih =>
    intro pos p hp
    simp only [linesWithPos, List.mem_cons] at hp
    rcases hp with hp | hp
    · subst hp
      exact List.mem_cons_self l rest
    · exact List.mem_cons_of_mem l (ih _ p hp)

theorem mdHeadingOfLine_none (pos : Nat) (l : List Char)
    (h : ∀ c ∈ l, c ≠ '#') : mdHeadingOfLine pos l = none := by
  cases l with
  | nil => rfl
  | cons c rest =>
    have hc : c ≠ '#' := h c (List.mem_cons_self c rest)
    simp [mdHeadingOfLine, List.takeWhile_cons, hc]

theorem mdHeadings_nil (text : String)
    (h : ∀ c ∈ text.toList, c ≠ '#') : mdHeadings text = [] := by
  rw [mdHeadings, List.filterMap_eq_nil_iff]
  intro p hp
  apply mdHeadingOfLine_none
  intro c hc
  exact h c (splitLinesChars_mem text.toList p.2
    (linesWithPos_mem (splitLinesChars text.toList) 0 p hp) c hc)

theorem htmlScan_nil :
    ∀ (fuel : Nat) (pos : Nat) (cs : List Char), (∀ c ∈ cs, c ≠ '<') →
      htmlScan fuel pos cs = [] := by
  intro fuel
  induction fuel with
  | zero => intro pos cs _; rfl
  | succ fuel ih =>
    intro pos cs h
    cases cs with
    | nil => rfl
    | cons c rest =>
      have hc : c ≠ '<' := h c (List.mem_cons_self c rest)
      simp only [htmlScan, if_neg hc]
      exact ih (pos + 1) rest (fun x hx => h x (List.mem_cons_of_mem c hx))

theorem extract_headings_nil (text : String) (hm : noHeadingMarkers text) :
    extract_headings text = [] := by
  have h1 : ∀ c ∈ text.toList, c ≠ '#' := fun c hc => (hm c hc).1
  have h2 : ∀ c ∈ text.toList, c ≠ '<' := fun c hc => (hm c hc).2
  rw [extract_headings, mdHeadings_nil text h1]
  have h3 : htmlScan (text.length + 1) 0 text.data = [] :=
    htmlScan_nil (text.length + 1) 0 text.toList h2
  simp [htmlHeadings, h3, sortByStart]

end SectionExtractor

/-- Claim C8 (amended): for text with no heading markers, the segmenter
returns the empty list when the text is empty or all-whitespace, and
otherwise exactly one section labelled "Content" whose raw text is the whole
document with surrounding whitespace stripped. -/
theorem segmenter_degenerate (cfg : Settings) (text page_url : String)
    (hm : SectionExtractor.noHeadingMarkers text)
    (hmax : 1 ≤ cfg.max_sections_per_page) :
    (pyStrip text = "" →
      SectionExtractor.extract_sections cfg text page_url = []) ∧
    (pyStrip text ≠ "" →
      SectionExtractor.extract_sections cfg text page_url =
        [{ section_id := SectionExtractor.generate_section_id page_url "Content" 0
           heading := "Content"
           heading_level := 1
           raw_text := pyStrip text
           start_pos := 0
           end_pos := text.length
           token_count := SectionExtractor.estimate_tokens text }]) := by
  have hh := SectionExtractor.extract_headings_nil text hm
  have hlt : ¬ (cfg.max_sections_per_page < 1) := Nat.not_lt.mpr hmax
  constructor
  · intro ht
    simp [SectionExtractor.extract_sections, hh,
      SectionExtractor.sectionsOfHeadings, ht]
  · intro ht
    simp [SectionExtractor.extract_sections, hh,
      SectionExtractor.sectionsOfHeadings, ht, hlt]

/-- Witness for claim C8: the degenerate-input theorem at concrete marker-free
text with surrounding whitespace. -/
theorem segmenter_degenerate_witness :
    (pyStrip c8Text = "" →
      SectionExtractor.extract_sections defaultSettings c8Text "u" = []) ∧
    (pyStrip c8Text ≠ "" →
      SectionExtractor.extract_sections defaultSettings c8Text "u" =
        [{ section_id := SectionExtractor.generate_section_id "u" "Content" 0
           heading := "Content"
           heading_level := 1
           raw_text := pyStrip c8Text
           start_pos := 0
           end_pos := c8Text.length
           token_count := SectionExtractor.estimate_tokens c8Text }]) :=
  segmenter_degenerate defaultSettings c8Text "u"
    (by unfold SectionExtractor.noHeadingMarkers; decide) (by decide)

/-- Counterexample to claim C8 as stated: the whitespace-only document
`"   "` is non-empty and contains no heading markers, yet the segmenter
returns the empty list rather than one "Content" section; and for non-blank
text with surrounding whitespace the single section's raw text is the
stripped text, not the whole document. -/
theorem segmenter_degenerate_cx :
    SectionExtractor.extract_sections defaultSettings "   " "u" = [] ∧
    "   " ≠ "" ∧
    (SectionExtractor.extract_sections defaultSettings c8Text "u").map
        SectionExtractor.ExtractedSection.raw_text = [pyStrip c8Text] ∧
    pyStrip c8Text ≠ c8Text := by decide

/-- Claim C6 evaluated on the code at a failing input: a Markdown page whose
only link points at a different host over `https` (base host
`docs.example.com`, target host `evil.example.org`).  Link extraction returns
that cross-origin link, and the fallback crawl selects its URL for fetching —
the Markdown filter drops only `http://` cross-origin targets
(`href.startswith('#') or href.startswith('http://') and netloc mismatch`),
so `https://` targets slip through. -/
theorem link_crawler_cross_origin :
    (∃ l ∈ LinkCrawler.extract_links c6PageText c6BaseUrl,
      LinkCrawler.netlocOf l.url ≠ LinkCrawler.netlocOf c6BaseUrl) ∧
    "https://evil.example.org/setup" ∈
      LinkCrawler.crawl_candidate_urls 3 c6PageText c6BaseUrl "setup" ∧
    LinkCrawler.netlocOf "https://evil.example.org/setup"
      ≠ LinkCrawler.netlocOf c6BaseUrl := by decide

theorem process_section_node_length (cfg : Settings) (llm : LLM)
    (st : PipeState) :
    (process_section_node cfg llm st).sections.length = st.sections.length := by
  have h := process_section_node_is_large cfg llm st
  have h2 := congrArg List.length h
  simpa using h2

theorem process_section_node_ids (cfg : Settings) (llm : LLM)
    (st : PipeState) :
    (process_section_node cfg llm st).sections.map SectionData.section_id
      = st.sections.map SectionData.section_id := by
  by_cases h : st.current_section_index < st.sections.length
  · cases hE : sectionSummaryE cfg llm st.page_type
        (st.sections.get ⟨st.current_section_index, h⟩) with
    | ok summary =>
      simp only [process_section_node, dif_pos h, hE]
      exact map_set_of_eq _ _ _ _ h rfl
    | error e =>
      simp only [process_section_node, dif_pos h, hE]
  · simp only [process_section_node, dif_neg h]

theorem process_section_node_cursor (cfg : Settings) (llm : LLM)
    (st : PipeState) (h : st.current_section_index < st.sections.length) :
    (process_section_node cfg llm st).current_section_index
      = st.current_section_index + 1 := by
  cases hE : sectionSummaryE cfg llm st.page_type
      (st.sections.get ⟨st.current_section_index, h⟩) with
  | ok summary => simp only [process_section_node, dif_pos h, hE]
  | error e => simp only [process_section_node, dif_pos h, hE]

theorem process_section_node_summary_mono (cfg : Settings) (llm : LLM)
    (st : PipeState) (k2 : String)
    (h2 : (dictLookup st.section_summaries k2).isSome) :
    (dictLookup (process_section_node cfg llm st).section_summaries k2).isSome := by
  by_cases h : st.current_section_index < st.sections.length
  · cases hE : sectionSummaryE cfg llm st.page_type
        (st.sections.get ⟨st.current_section_index, h⟩) with
    | ok summary =>
      simp only [process_section_node, dif_pos h, hE]
      exact dictLookup_dictInsert_isSome _ _ _ _ h2
    | error e =>
      simp only [process_section_node, dif_pos h, hE]
      exact dictLookup_dictInsert_isSome _ _ _ _ h2
  · simp only [process_section_node, dif_neg h]
    exact h2

theorem process_section_node_covers (cfg : Settings) (llm : LLM)
    (st : PipeState) (h : st.current_section_index < st.sections.length) :
    (dictLookup (process_section_node cfg llm st).section_summaries
      (st.sections.get ⟨st.current_section_index, h⟩).section_id).isSome := by
  cases hE : sectionSummaryE cfg llm st.page_type
      (st.sections.get ⟨st.current_section_index, h⟩) with
  | ok summary =>
    simp only [process_section_node, dif_pos h, hE]
    rw [dictLookup_dictInsert_self]
    rfl
  | error e =>
    simp only [process_section_node, dif_pos h, hE]
    rw [dictLookup_dictInsert_self]
    rfl

theorem map_eq_getElem {α β : Type} {f : α → β} {l1 l2 : List α}
    (h : l1.map f = l2.map f) (i : Nat) (h1 : i < l1.length)
    (h2 : i < l2.length) : f (l1.get ⟨i, h1⟩) = f (l2.get ⟨i, h2⟩) := by
  have h3 := congrArg (fun l => l[i]?) h
  simp only [List.getElem?_map] at h3
  rw [List.getElem?_eq_getElem h1, List.getElem?_eq_getElem h2] at h3
  simp only [Option.map_some'] at h3
  rw [List.get_eq_getElem, List.get_eq_getElem]
  exact Option.some.inj h3

theorem section_loop_invariant (cfg : Settings) (llm : LLM) (st : PipeState)
    (h0 : st.current_section_index = 0) :
    ∀ k, k ≤ st.sections.length →
      ((process_section_node cfg llm)^[k] st).current_section_index = k ∧
      ((process_section_node cfg llm)^[k] st).sections.map SectionData.section_id
        = st.sections.map SectionData.section_id ∧
      ∀ sec ∈ st.sections.take k,
        (dictLookup ((process_section_node cfg llm)^[k] st).section_summaries
          sec.section_id).isSome := by
  intro k
  induction k with
  | zero =>
    intro _
    refine ⟨by simpa using h0, by simp, ?_⟩
    intro sec hsec
    simp at hsec
  | succ k ih =>
    intro hk
    have hk2 : k ≤ st.sections.length := Nat.le_of_succ_le hk
    rcases ih hk2 with ⟨hidx, hids, hcov⟩
    have hlen : ((process_section_node cfg llm)^[k] st).sections.length
        = st.sections.length := by
      have := congrArg List.length hids
      simpa using this
    have hk3 : k < st.sections.length := hk
    have hklt : ((process_section_node cfg llm)^[k] st).current_section_index
        < ((process_section_node cfg llm)^[k] st).sections.length := by
      rw [hidx, hlen]
      exact hk
    have hstep_id :
        (((process_section_node cfg llm)^[k] st).sections.get
          ⟨((process_section_node cfg llm)^[k] st).current_section_index, hklt⟩).section_id
        = (st.sections.get ⟨k, hk3⟩).section_id := by
      have h5 := map_eq_getElem hids k (by rw [hlen]; exact hk3) hk3
      simp only [hidx]
      exact h5
    refine ⟨?_, ?_, ?_⟩
    · rw [Function.iterate_succ_apply',
        process_section_node_cursor cfg llm _ hklt, hidx]
    · rw [Function.iterate_succ_apply', process_section_node_ids, hids]
    · intro sec hsec
      rw [List.take_succ] at hsec
      rcases List.mem_append.mp hsec with hsec | hsec
      · rw [Function.iterate_succ_apply']
        exact process_section_node_summary_mono cfg llm _ _ (hcov sec hsec)
      · have hget : st.sections[k]? = some (st.sections.get ⟨k, hk3⟩) := by
          rw [List.getElem?_eq_getElem hk3, List.get_eq_getElem]
        rw [hget] at hsec
        simp only [Option.toList_some, List.mem_singleton] at hsec
        subst hsec
        rw [Function.iterate_succ_apply']
        have := process_section_node_covers cfg llm
          ((process_section_node cfg llm)^[k] st) hklt
        rwa [hstep_id] at this

/-- Claim C10: starting at cursor 0, every section-processing step advances
the cursor by exactly one (success or failure), so the continue-condition
routes back for exactly `n` iterations and to embedding afterwards, and after
the `n`-th iteration the summary map holds an entry for every section's
`section_id`. -/
theorem section_loop_progress (cfg : Settings) (llm : LLM) (st : PipeState)
    (h0 : st.current_section_index = 0) :
    (∀ k, k ≤ st.sections.length →
      ((process_section_node cfg llm)^[k] st).current_section_index = k) ∧
    (∀ k, k < st.sections.length →
      should_continue_processing ((process_section_node cfg llm)^[k] st)
        = "continue") ∧
    should_continue_processing
      ((process_section_node cfg llm)^[st.sections.length] st) = "embed" ∧
    ∀ sec ∈ st.sections,
      (dictLookup
        (((process_section_node cfg llm)^[st.sections.length] st).section_summaries)
        sec.section_id).isSome := by
  have hlen : ∀ k, k ≤ st.sections.length →
      ((process_section_node cfg llm)^[k] st).sections.length
        = st.sections.length := by
    intro k hk
    have := congrArg List.length
      ((section_loop_invariant cfg llm st h0 k hk).2.1)
    simpa using this
  refine ⟨?_, ?_, ?_, ?_⟩
  · intro k hk
    exact (section_loop_invariant cfg llm st h0 k hk).1
  · intro k hk
    have h1 := (section_loop_invariant cfg llm st h0 k (Nat.le_of_lt hk)).1
    rw [should_continue_processing, if_pos]
    rw [h1, hlen k (Nat.le_of_lt hk)]
    exact hk
  · have h1 := (section_loop_invariant cfg llm st h0 st.sections.length
      (Nat.le_refl _)).1
    rw [should_continue_processing, if_neg]
    rw [h1, hlen st.sections.length (Nat.le_refl _)]
    exact Nat.lt_irrefl _
  · intro sec hsec
    have h1 := (section_loop_invariant cfg llm st h0 st.sections.length
      (Nat.le_refl _)).2.2
    exact h1 sec (by rwa [List.take_length])

/-- Witness for claim C10: the loop theorem at the concrete one-section
state — one iteration routes to embedding and the summary map covers the
section. -/
theorem section_loop_progress_witness :
    should_continue_processing
      ((process_section_node cxSettings cxLLM)^[cxState.sections.length] cxState)
      = "embed" ∧
    ∀ sec ∈ cxState.sections,
      (dictLookup
        (((process_section_node cxSettings cxLLM)^[cxState.sections.length]
          cxState).section_summaries) sec.section_id).isSome :=
  ⟨(section_loop_progress cxSettings cxLLM cxState rfl).2.2.1,
   (section_loop_progress cxSettings cxLLM cxState rfl).2.2.2⟩

end DocPilot
